import Mathlib

/-!
Shallow embedding of `src/dev_health_monitor.py` (session segmentation,
session metrics, and the stateful reminder scheduler `health_check_loop`).

Modelling choices:

* An `Instant` is an integer count of seconds since the epoch.  The
  timestamp source is `git log --pretty=format:%ct`, which yields whole
  Unix seconds, so this is exact.  Python's float arithmetic on
  `timedelta.total_seconds() / 60` etc. is modelled exactly over `Rat`
  (the float values involved are exact for realistic timestamp ranges).
* `datetime` calendar fields are modelled for a fixed (UTC-like) local
  timezone: `hour` is derived from the epoch second, the calendar date
  (`.date()`) is the epoch day, and `isocalendar()[1]` is implemented
  exactly: the ISO week-of-year number (1-53) of the Gregorian year of
  the week's Thursday, computed by standard civil-calendar arithmetic.
  Like the Python value, this number wraps every year, so instants about
  a year apart can carry the same week number — the source compares only
  this number for equality (lines 132, 137 and 144).
* Python `int(x)` truncates toward zero, modelled by `Int.tdiv`.
* `health_check_loop` is side-effect free apart from emitting
  notifications and sleeping; one loop iteration is modelled as the pure
  function `tick : SchedState → Instant → List Instant →
  SchedState × List Notif`.  Notifications are identified by
  constructors of `Notif`, one per distinct (title, message) pair the
  loop can emit (messages elided; `monitoringStarted` and `noData` share
  the title "Developer Health Monitor" in the source but differ in
  message).  The real-time parts (`time.sleep`, the stop-event polling
  loop, thread marshaling) are outside this embedding.
-/

/-- Line 21 of the source: `LONG_SESSION_HOURS = 3`. -/
def LONG_SESSION_HOURS : Int := 3

/-- Line 22 of the source: `LATE_NIGHT_START = 22`. -/
def LATE_NIGHT_START : Int := 22

/-- Line 23 of the source: `LATE_NIGHT_END = 6`. -/
def LATE_NIGHT_END : Int := 6

/-- Line 24 of the source: `MIN_BREAK_MINUTES = 5`. -/
def MIN_BREAK_MINUTES : Int := 5

/-- A point in time: whole seconds since the epoch. -/
abbrev Instant := Int

/-- Model of `datetime.hour` for a fixed local timezone. -/
def hourOf (t : Instant) : Int := (t.ediv 3600).emod 24

/-- Model of `datetime.date()` for a fixed local timezone: the epoch day. -/
def dateOf (t : Instant) : Int := t.ediv 86400

/-- Gregorian calendar year of an epoch day (standard civil-from-days
conversion over 400-year eras of 146097 days). -/
def yearOfDay (z : Int) : Int :=
  let z2 := z + 719468
  let era := z2.ediv 146097
  let doe := z2 - era * 146097
  let yoe := (doe - doe.ediv 1460 + doe.ediv 36524 - doe.ediv 146096).ediv 365
  let y := yoe + era * 400
  let doy := doe - (365 * yoe + yoe.ediv 4 - yoe.ediv 100)
  let mp := (5 * doy + 2).ediv 153
  if 10 ≤ mp then y + 1 else y

/-- Epoch day of 1 January of a Gregorian year (standard days-from-civil
conversion; 1 January is day 306 of the March-based year beginning in the
preceding calendar year). -/
def jan1OfYear (y : Int) : Int :=
  let y2 := y - 1
  let era := y2.ediv 400
  let yoe := y2 - era * 400
  era * 146097 + (yoe * 365 + yoe.ediv 4 - yoe.ediv 100 + 306) - 719468

/-- ISO weekday of an epoch day, Monday = 0 (epoch day 0, 1970-01-01, was
a Thursday). -/
def isoWeekday (z : Int) : Int := (z + 3).emod 7

/-- The Thursday of the ISO (Monday-based) week containing an epoch day. -/
def isoThursday (z : Int) : Int := z - isoWeekday z + 3

/-- Model of `datetime.isocalendar()[1]`, the ISO week-of-year number
(1-53): an instant's ISO week belongs to the Gregorian year of that
week's Thursday, and week 1 of a year is the week containing 4 January
(equivalently, the week of the year's first Thursday).  Like
`isocalendar()[1]`, this number wraps every year, and the source compares
only this number for equality (lines 132, 137 and 144), so instants about
a year apart can compare equal. -/
def isoWeekOf (t : Instant) : Int :=
  let th := isoThursday (dateOf t)
  (th - jan1OfYear (yearOfDay th)).ediv 7 + 1

/-- Model of `isocalendar()[0]`, the ISO year of an instant: the
Gregorian year of its ISO week's Thursday.  The source never consults it;
it serves to state where the week-of-year number wraps. -/
def isoYearOf (t : Instant) : Int := yearOfDay (isoThursday (dateOf t))

/-- Line 51 of the source: `diff = (curr - prev).total_seconds() / 60`,
the gap between two instants in minutes. -/
def minuteGap (prev curr : Instant) : Rat := ((curr - prev : Int) : Rat) / 60

/-- Lines 48-58 of the source: the single pass of `analyze_sessions`.
`prev` is the previously visited instant, `session` the session being
built (initially `[commit_times[0]]`), and the third argument the
remaining instants.  A gap strictly greater than `MIN_BREAK_MINUTES`
closes the current session; the final session is always appended
(`session` is never empty). -/
def analyzeAux : Instant → List Instant → List Instant → List (List Instant)
  | _, session, [] => [session]
  | prev, session, curr :: rest =>
    if minuteGap prev curr > (MIN_BREAK_MINUTES : Rat) then
      session :: analyzeAux curr [curr] rest
    else
      analyzeAux curr (session ++ [curr]) rest

/-- Lines 43-59 of the source, `analyze_sessions`.  On empty input the
source executes a bare `return`, i.e. returns Python `None`, modelled as
`none`; otherwise it sorts ascending and runs the single pass.  (The
source tests emptiness before sorting; sorting maps empty to empty and
non-empty to non-empty, so matching on the sorted list captures both
branches.) -/
def analyze_sessions (commit_times : List Instant) : Option (List (List Instant)) :=
  match List.insertionSort (· ≤ ·) commit_times with
  | [] => none
  | t0 :: rest => some (analyzeAux t0 [t0] rest)

/-- Span of a session in seconds: `(s[-1] - s[0]).total_seconds()`.  The
defaults are irrelevant: the scheduler only applies this to the non-empty
sessions produced by `analyze_sessions`. -/
def sessionSpanSec (s : List Instant) : Int := (s.getLast?).getD 0 - (s.head?).getD 0

/-- Span of a session in hours, `(s[-1] - s[0]).total_seconds() / 3600`. -/
def sessionHours (s : List Instant) : Rat := (sessionSpanSec s : Rat) / 3600

/-- Lines 143 and 145 of the source:
`int((s[-1] - s[0]).total_seconds() / 60)`, the session duration in
minutes truncated to an integer. -/
def sessionMinutes (s : List Instant) : Int := (sessionSpanSec s).tdiv 60

/-- Lines 64, 86 and 147 of the source: sessions whose span exceeds
`LONG_SESSION_HOURS` hours. -/
def long_sessions (ss : List (List Instant)) : List (List Instant) :=
  ss.filter (fun s => decide (sessionHours s > (LONG_SESSION_HOURS : Rat)))

/-- Part of line 148 of the source:
`all((curr - prev).total_seconds() / 60 < 60 for prev, curr in zip(s, s[1:]))`. -/
def gapsUnder60 (s : List Instant) : Bool :=
  (s.zip s.tail).all (fun p => decide (minuteGap p.1 p.2 < 60))

/-- Line 148 of the source: sessions with every internal gap under 60
minutes and a span over 2 hours. -/
def no_break_sessions (ss : List (List Instant)) : List (List Instant) :=
  ss.filter (fun s => gapsUnder60 s && decide (sessionHours s > 2))

/-- The late-night test applied to an hour value, from lines 65, 87 and
150 of the source: `LATE_NIGHT_START <= c.hour or c.hour < LATE_NIGHT_END`. -/
def isLateNightHour (h : Int) : Bool :=
  decide (LATE_NIGHT_START ≤ h ∨ h < LATE_NIGHT_END)

/-- Lines 65, 87 and 150 of the source:
`[c for s in sessions for c in s if LATE_NIGHT_START <= c.hour or c.hour < LATE_NIGHT_END]`. -/
def late_night_commits (ss : List (List Instant)) : List Instant :=
  ss.flatten.filter (fun c => isLateNightHour (hourOf c))

/-- Lines 141-143 of the source: the sum of `sessionMinutes` over the
sessions whose start date equals `today`. -/
def dailyDelta (ss : List (List Instant)) (today : Int) : Int :=
  ((ss.filter (fun s => decide (dateOf ((s.head?).getD 0) = today))).map sessionMinutes).sum

/-- Lines 141, 144-145 of the source: the sum of `sessionMinutes` over
the sessions whose start carries the ISO week-of-year number `week`
(`s[0].isocalendar()[1] == week`; the source compares only the wrapping
week number, not the ISO year). -/
def weeklyDelta (ss : List (List Instant)) (week : Int) : Int :=
  ((ss.filter (fun s => decide (isoWeekOf ((s.head?).getD 0) = week))).map sessionMinutes).sum

/-- The claim's words, for contrast with the source's `weeklyDelta`: the
sum of `sessionMinutes` over the sessions whose start falls in the
genuine ISO week identified by ISO year AND week number.  Line 144 of the
source compares only the week number. -/
def weeklyDeltaCalendarWeek (ss : List (List Instant)) (isoYear week : Int) : Int :=
  ((ss.filter (fun s => decide (isoYearOf ((s.head?).getD 0) = isoYear ∧
      isoWeekOf ((s.head?).getD 0) = week))).map sessionMinutes).sum

/-- Line 111 of the source: `hydration_interval = 60`. -/
def hydration_interval : Int := 60

/-- Line 112 of the source: `activity_interval = 90`. -/
def activity_interval : Int := 90

/-- Line 113 of the source: `mood_check_interval = 180`. -/
def mood_check_interval : Int := 180

/-- Line 114 of the source: `ergonomics_interval = 120`. -/
def ergonomics_interval : Int := 120

/-- The rolling state of `health_check_loop` (locals initialised on lines
102-116 that survive from one iteration to the next; `last_break_reminder`
is initialised but never used and is omitted). -/
structure SchedState where
  last_hydration_reminder : Option Instant
  last_activity_reminder : Option Instant
  last_ergonomics_tip : Option Instant
  last_mood_check : Option Instant
  daily_coding_minutes : Int
  weekly_coding_minutes : Int
  last_day : Option Int
  last_week : Option Int
  positive_reinforcement_given : Bool
  first_run : Bool
  deriving DecidableEq

/-- The initial state, from lines 102-116 of the source. -/
def initState : SchedState :=
  ⟨none, none, none, none, 0, 0, none, none, false, true⟩

/-- One constructor per distinct (title, message) pair the loop can emit.
`monitoringStarted` (line 123) and `noData` (line 191) share the title
"Developer Health Monitor" but have different messages. -/
inductive Notif where
  | monitoringStarted
  | noData
  | healthAlert
  | breakReminder
  | nightOwl
  | workLimit
  | weeklyLimit
  | hydration
  | activity
  | ergonomics
  | mood
  | greatJob
  deriving DecidableEq

/-- Lines 133-136 of the source: `if last_day != today: daily_coding_minutes = 0;
last_day = today; positive_reinforcement_given = False`.  Python `None != today`
is true, modelled by `Option` inequality. -/
def rollDay (st : SchedState) (today : Int) : SchedState :=
  if st.last_day ≠ some today then
    { st with daily_coding_minutes := 0, last_day := some today,
              positive_reinforcement_given := false }
  else st

/-- Lines 137-139 of the source: `if last_week != week: weekly_coding_minutes = 0;
last_week = week`. -/
def rollWeek (st : SchedState) (week : Int) : SchedState :=
  if st.last_week ≠ some week then
    { st with weekly_coding_minutes := 0, last_week := some week }
  else st

/-- Lines 140-145 of the source: fold this tick's daily and weekly sums
onto the rolling accumulators. -/
def accumulate (st : SchedState) (ss : List (List Instant)) (today week : Int) : SchedState :=
  { st with
      daily_coding_minutes := st.daily_coding_minutes + dailyDelta ss today,
      weekly_coding_minutes := st.weekly_coding_minutes + weeklyDelta ss week }

/-- Lines 152-155 of the source: minutes elapsed since a reminder
timestamp, or `interval + 1` when it was never set (Python `None` is
falsy; a `datetime` is always truthy). -/
def minutesSince (now : Instant) (last : Option Instant) (interval : Int) : Rat :=
  match last with
  | some t => ((now - t : Int) : Rat) / 60
  | none => (interval : Rat) + 1

/-- Line 180 of the source: the disjunction of the five alert conditions
guarding positive reinforcement. -/
def alertsAny (ss : List (List Instant)) (daily weekly : Int) : Prop :=
  long_sessions ss ≠ [] ∨ no_break_sessions ss ≠ [] ∨ late_night_commits ss ≠ [] ∨
    daily > 8 * 60 ∨ weekly > 40 * 60

instance (ss : List (List Instant)) (d w : Int) : Decidable (alertsAny ss d w) := by
  unfold alertsAny
  infer_instance

/-- Lines 127-187 of the source: the rule-evaluating body of one loop
iteration, entered when `first_run` is false and `sessions` is truthy.
Returns the new rolling state and the notifications of this tick in
emission order. -/
def evalTick (st : SchedState) (now : Instant) (ss : List (List Instant)) :
    SchedState × List Notif :=
  let today := dateOf now
  let week := isoWeekOf now
  let st2 := accumulate (rollWeek (rollDay st today) week) ss today week
  let longs := long_sessions ss
  let noBreaks := no_break_sessions ss
  let lateNight := late_night_commits ss
  let mHyd := minutesSince now st2.last_hydration_reminder hydration_interval
  let mAct := minutesSince now st2.last_activity_reminder activity_interval
  let mErg := minutesSince now st2.last_ergonomics_tip ergonomics_interval
  let mMood := minutesSince now st2.last_mood_check mood_check_interval
  let ns1 : List Notif := if longs ≠ [] then [Notif.healthAlert] else []
  let ns2 : List Notif := if noBreaks ≠ [] then [Notif.breakReminder] else []
  let ns3 : List Notif := if lateNight ≠ [] then [Notif.nightOwl] else []
  let ns4 : List Notif := if st2.daily_coding_minutes > 8 * 60 then [Notif.workLimit] else []
  let ns5 : List Notif := if st2.weekly_coding_minutes > 40 * 60 then [Notif.weeklyLimit] else []
  let ns6 : List Notif := if mHyd > (hydration_interval : Rat) then [Notif.hydration] else []
  let ns7 : List Notif := if mAct > (activity_interval : Rat) then [Notif.activity] else []
  let ns8 : List Notif := if mErg > (ergonomics_interval : Rat) then [Notif.ergonomics] else []
  let ns9 : List Notif := if mMood > (mood_check_interval : Rat) then [Notif.mood] else []
  let st3 :=
    { st2 with
        last_hydration_reminder :=
          if mHyd > (hydration_interval : Rat) then some now else st2.last_hydration_reminder,
        last_activity_reminder :=
          if mAct > (activity_interval : Rat) then some now else st2.last_activity_reminder,
        last_ergonomics_tip :=
          if mErg > (ergonomics_interval : Rat) then some now else st2.last_ergonomics_tip,
        last_mood_check :=
          if mMood > (mood_check_interval : Rat) then some now else st2.last_mood_check }
  let firePos :=
    ¬ alertsAny ss st2.daily_coding_minutes st2.weekly_coding_minutes ∧
      st2.positive_reinforcement_given = false
  let ns10 : List Notif := if firePos then [Notif.greatJob] else []
  let st4 := if firePos then { st3 with positive_reinforcement_given := true } else st3
  (st4, ns1 ++ ns2 ++ ns3 ++ ns4 ++ ns5 ++ ns6 ++ ns7 ++ ns8 ++ ns9 ++ ns10)

/-- Lines 118-191 of the source: one full iteration of `health_check_loop`
minus the sleeps.  The source computes `sessions` first and then branches:
`first_run` is tested first (lines 122-124); otherwise a truthy `sessions`
(non-`None` and non-empty) enters the rule-evaluating body and a falsy one
the no-data branch (lines 188-191, no state mutation). -/
def tick (st : SchedState) (now : Instant) (commit_times : List Instant) :
    SchedState × List Notif :=
  if st.first_run then
    ({ st with first_run := false }, [Notif.monitoringStarted])
  else
    match analyze_sessions commit_times with
    | some (s :: rest) => evalTick st now (s :: rest)
    | _ => (st, [Notif.noData])

/-- A sequence of loop iterations: each step supplies that tick's `now`
and the commit instants fetched at that tick.  Returns the final state and
the concatenation of all emitted notifications. -/
def runTicks : SchedState → List (Instant × List Instant) → SchedState × List Notif
  | st, [] => (st, [])
  | st, (now, cs) :: rest =>
    let r := tick st now cs
    let r2 := runTicks r.1 rest
    (r2.1, r.2 ++ r2.2)

/-- The value of `daily_coding_minutes` visible to the rules of a
rule-evaluating tick: the accumulator after the day-boundary roll of lines
133-136 plus this tick's daily sum of lines 141-143. -/
def postRollDaily (st : SchedState) (ss : List (List Instant)) (now : Instant) : Int :=
  (if st.last_day = some (dateOf now) then st.daily_coding_minutes else 0) +
    dailyDelta ss (dateOf now)

/-- The value of `weekly_coding_minutes` visible to the rules of a
rule-evaluating tick. -/
def postRollWeekly (st : SchedState) (ss : List (List Instant)) (now : Instant) : Int :=
  (if st.last_week = some (isoWeekOf now) then st.weekly_coding_minutes else 0) +
    weeklyDelta ss (isoWeekOf now)

/-- The hydration-reminder firing condition of line 168 of the source. -/
def fireHydration (st : SchedState) (now : Instant) : Prop :=
  (hydration_interval : Rat) < minutesSince now st.last_hydration_reminder hydration_interval

/-- The activity-reminder firing condition of line 171 of the source. -/
def fireActivity (st : SchedState) (now : Instant) : Prop :=
  (activity_interval : Rat) < minutesSince now st.last_activity_reminder activity_interval

/-- The ergonomics-tip firing condition of line 174 of the source. -/
def fireErgonomics (st : SchedState) (now : Instant) : Prop :=
  (ergonomics_interval : Rat) < minutesSince now st.last_ergonomics_tip ergonomics_interval

/-- The mood-check firing condition of line 177 of the source. -/
def fireMood (st : SchedState) (now : Instant) : Prop :=
  (mood_check_interval : Rat) < minutesSince now st.last_mood_check mood_check_interval

/-- The value of `positive_reinforcement_given` visible to the rules of a
rule-evaluating tick (after the day-boundary roll of lines 133-136). -/
def postRollPos (st : SchedState) (now : Instant) : Bool :=
  if st.last_day = some (dateOf now) then st.positive_reinforcement_given else false

/-- The positive-reinforcement firing condition of lines 180-181 of the
source: none of the five alert conditions holds and the (post-roll) flag
is still false. -/
def firesPositive (st : SchedState) (now : Instant) (ss : List (List Instant)) : Prop :=
  ¬ alertsAny ss (postRollDaily st ss now) (postRollWeekly st ss now) ∧
    postRollPos st now = false

instance (st : SchedState) (now : Instant) : Decidable (fireHydration st now) := by
  unfold fireHydration
  infer_instance

instance (st : SchedState) (now : Instant) : Decidable (fireActivity st now) := by
  unfold fireActivity
  infer_instance

instance (st : SchedState) (now : Instant) : Decidable (fireErgonomics st now) := by
  unfold fireErgonomics
  infer_instance

instance (st : SchedState) (now : Instant) : Decidable (fireMood st now) := by
  unfold fireMood
  infer_instance

instance (st : SchedState) (now : Instant) (ss : List (List Instant)) :
    Decidable (firesPositive st now ss) := by
  unfold firesPositive
  infer_instance

/-! ### Bridging minute/hour comparisons on `Rat` to integer seconds -/

/-- A gap expressed in minutes exceeds `m` minutes exactly when the gap in
seconds exceeds `60 * m`. -/
theorem minuteGap_gt_iff (p c m : Int) : ((m : Rat) < minuteGap p c) ↔ 60 * m < c - p := by
  rw [minuteGap, lt_div_iff₀ (by norm_num)]
  rw [show ((m : Rat) * 60) = ((60 * m : Int) : Rat) by push_cast; ring]
  exact Int.cast_lt

/-- A gap expressed in minutes is under `m` minutes exactly when the gap in
seconds is under `60 * m`. -/
theorem minuteGap_lt_iff (p c m : Int) : (minuteGap p c < (m : Rat)) ↔ c - p < 60 * m := by
  rw [minuteGap, div_lt_iff₀ (by norm_num)]
  rw [show ((m : Rat) * 60) = ((60 * m : Int) : Rat) by push_cast; ring]
  exact Int.cast_lt

/-- A span expressed in hours exceeds `m` hours exactly when the span in
seconds exceeds `3600 * m`. -/
theorem sessionHours_gt_iff (s : List Instant) (m : Int) :
    ((m : Rat) < sessionHours s) ↔ 3600 * m < sessionSpanSec s := by
  rw [sessionHours, lt_div_iff₀ (by norm_num)]
  rw [show ((m : Rat) * 3600) = ((3600 * m : Int) : Rat) by push_cast; ring]
  exact Int.cast_lt

/-- Elapsed-minutes test of lines 152 and 168: never fired means elapsed
counts as `interval + 1 > interval`; otherwise compare in seconds. -/
theorem minutesSince_gt_iff (now : Instant) (last : Option Instant) (i : Int) :
    ((i : Rat) < minutesSince now last i) ↔
      (last = none ∨ ∃ t, last = some t ∧ 60 * i < now - t) := by
  cases last with
  | none =>
    constructor
    · intro _
      exact Or.inl rfl
    · intro _
      rw [minutesSince]
      linarith
  | some t =>
    simp only [minutesSince, Option.some.injEq, reduceCtorEq, false_or]
    rw [show ((now - t : Int) : Rat) / 60 = minuteGap t now by rw [minuteGap]]
    rw [minuteGap_gt_iff]
    constructor
    · intro h
      exact ⟨t, rfl, h⟩
    · rintro ⟨u, hu, h⟩
      cases hu
      exact h

/-- The week-number model agrees with `datetime.isocalendar()` on
spot-checked dates, including year-boundary weeks: epoch day 19723
(2024-01-01) is 2024-W01, 19358 (2023-01-01) is 2022-W52, 18628
(2021-01-01) is 2020-W53, 19516 (2023-06-08) is 2023-W23 and 19880
(2024-06-06) is 2024-W23. -/
theorem isoWeek_matches_isocalendar :
    isoWeekOf (19723 * 86400) = 1 ∧ isoYearOf (19723 * 86400) = 2024 ∧
      isoWeekOf (19358 * 86400) = 52 ∧ isoYearOf (19358 * 86400) = 2022 ∧
      isoWeekOf (18628 * 86400) = 53 ∧ isoYearOf (18628 * 86400) = 2020 ∧
      isoWeekOf (19516 * 86400) = 23 ∧ isoYearOf (19516 * 86400) = 2023 ∧
      isoWeekOf (19880 * 86400) = 23 ∧ isoYearOf (19880 * 86400) = 2024 := by
  decide

/-! ### Field lemmas for the state-updating steps -/

@[simp] theorem rollDay_first_run (st : SchedState) (d : Int) :
    (rollDay st d).first_run = st.first_run := by
  rw [rollDay]; split <;> rfl

@[simp] theorem rollDay_hyd (st : SchedState) (d : Int) :
    (rollDay st d).last_hydration_reminder = st.last_hydration_reminder := by
  rw [rollDay]; split <;> rfl

@[simp] theorem rollDay_act (st : SchedState) (d : Int) :
    (rollDay st d).last_activity_reminder = st.last_activity_reminder := by
  rw [rollDay]; split <;> rfl

@[simp] theorem rollDay_erg (st : SchedState) (d : Int) :
    (rollDay st d).last_ergonomics_tip = st.last_ergonomics_tip := by
  rw [rollDay]; split <;> rfl

@[simp] theorem rollDay_mood (st : SchedState) (d : Int) :
    (rollDay st d).last_mood_check = st.last_mood_check := by
  rw [rollDay]; split <;> rfl

@[simp] theorem rollDay_weekly (st : SchedState) (d : Int) :
    (rollDay st d).weekly_coding_minutes = st.weekly_coding_minutes := by
  rw [rollDay]; split <;> rfl

@[simp] theorem rollDay_last_week (st : SchedState) (d : Int) :
    (rollDay st d).last_week = st.last_week := by
  rw [rollDay]; split <;> rfl

@[simp] theorem rollDay_last_day (st : SchedState) (d : Int) :
    (rollDay st d).last_day = some d := by
  rw [rollDay]; split <;> simp_all

@[simp] theorem rollDay_daily (st : SchedState) (d : Int) :
    (rollDay st d).daily_coding_minutes =
      if st.last_day = some d then st.daily_coding_minutes else 0 := by
  rcases eq_or_ne st.last_day (some d) with h | h <;> simp [rollDay, h]

@[simp] theorem rollDay_pos (st : SchedState) (d : Int) :
    (rollDay st d).positive_reinforcement_given =
      if st.last_day = some d then st.positive_reinforcement_given else false := by
  rcases eq_or_ne st.last_day (some d) with h | h <;> simp [rollDay, h]

@[simp] theorem rollWeek_first_run (st : SchedState) (w : Int) :
    (rollWeek st w).first_run = st.first_run := by
  rw [rollWeek]; split <;> rfl

@[simp] theorem rollWeek_hyd (st : SchedState) (w : Int) :
    (rollWeek st w).last_hydration_reminder = st.last_hydration_reminder := by
  rw [rollWeek]; split <;> rfl

@[simp] theorem rollWeek_act (st : SchedState) (w : Int) :
    (rollWeek st w).last_activity_reminder = st.last_activity_reminder := by
  rw [rollWeek]; split <;> rfl

@[simp] theorem rollWeek_erg (st : SchedState) (w : Int) :
    (rollWeek st w).last_ergonomics_tip = st.last_ergonomics_tip := by
  rw [rollWeek]; split <;> rfl

@[simp] theorem rollWeek_mood (st : SchedState) (w : Int) :
    (rollWeek st w).last_mood_check = st.last_mood_check := by
  rw [rollWeek]; split <;> rfl

@[simp] theorem rollWeek_daily (st : SchedState) (w : Int) :
    (rollWeek st w).daily_coding_minutes = st.daily_coding_minutes := by
  rw [rollWeek]; split <;> rfl

@[simp] theorem rollWeek_last_day (st : SchedState) (w : Int) :
    (rollWeek st w).last_day = st.last_day := by
  rw [rollWeek]; split <;> rfl

@[simp] theorem rollWeek_pos (st : SchedState) (w : Int) :
    (rollWeek st w).positive_reinforcement_given = st.positive_reinforcement_given := by
  rw [rollWeek]; split <;> rfl

@[simp] theorem rollWeek_last_week (st : SchedState) (w : Int) :
    (rollWeek st w).last_week = some w := by
  rw [rollWeek]; split <;> simp_all

@[simp] theorem rollWeek_weekly (st : SchedState) (w : Int) :
    (rollWeek st w).weekly_coding_minutes =
      if st.last_week = some w then st.weekly_coding_minutes else 0 := by
  rcases eq_or_ne st.last_week (some w) with h | h <;> simp [rollWeek, h]

@[simp] theorem accumulate_first_run (st : SchedState) (ss : List (List Instant)) (d w : Int) :
    (accumulate st ss d w).first_run = st.first_run := rfl

@[simp] theorem accumulate_hyd (st : SchedState) (ss : List (List Instant)) (d w : Int) :
    (accumulate st ss d w).last_hydration_reminder = st.last_hydration_reminder := rfl

@[simp] theorem accumulate_act (st : SchedState) (ss : List (List Instant)) (d w : Int) :
    (accumulate st ss d w).last_activity_reminder = st.last_activity_reminder := rfl

@[simp] theorem accumulate_erg (st : SchedState) (ss : List (List Instant)) (d w : Int) :
    (accumulate st ss d w).last_ergonomics_tip = st.last_ergonomics_tip := rfl

@[simp] theorem accumulate_mood (st : SchedState) (ss : List (List Instant)) (d w : Int) :
    (accumulate st ss d w).last_mood_check = st.last_mood_check := rfl

@[simp] theorem accumulate_last_day (st : SchedState) (ss : List (List Instant)) (d w : Int) :
    (accumulate st ss d w).last_day = st.last_day := rfl

@[simp] theorem accumulate_last_week (st : SchedState) (ss : List (List Instant)) (d w : Int) :
    (accumulate st ss d w).last_week = st.last_week := rfl

@[simp] theorem accumulate_pos (st : SchedState) (ss : List (List Instant)) (d w : Int) :
    (accumulate st ss d w).positive_reinforcement_given =
      st.positive_reinforcement_given := rfl

@[simp] theorem accumulate_daily (st : SchedState) (ss : List (List Instant)) (d w : Int) :
    (accumulate st ss d w).daily_coding_minutes =
      st.daily_coding_minutes + dailyDelta ss d := rfl

@[simp] theorem accumulate_weekly (st : SchedState) (ss : List (List Instant)) (d w : Int) :
    (accumulate st ss d w).weekly_coding_minutes =
      st.weekly_coding_minutes + weeklyDelta ss w := rfl

/-- Membership in a conditional singleton segment of the notification
list. -/
theorem mem_ite_singleton {c : Prop} [Decidable c] (a x : Notif) :
    (x ∈ if c then [a] else ([] : List Notif)) ↔ c ∧ x = a := by
  split <;> simp_all

/-! ### Structure of the segmenter output -/

/-- The single pass never returns an empty list of sessions. -/
theorem analyzeAux_ne_nil (rest : List Instant) :
    ∀ prev session, analyzeAux prev session rest ≠ [] := by
  induction rest with
  | nil =>
    intro prev session
    simp [analyzeAux]
  | cons curr rest ih =>
    intro prev session
    rw [analyzeAux]
    split
    · simp
    · exact ih curr (session ++ [curr])

/-- Concatenating the sessions built by the single pass restores the input
instants: the session under construction followed by the rest. -/
theorem analyzeAux_flatten (rest : List Instant) :
    ∀ prev session, (analyzeAux prev session rest).flatten = session ++ rest := by
  induction rest with
  | nil =>
    intro prev session
    simp [analyzeAux]
  | cons curr rest ih =>
    intro prev session
    rw [analyzeAux]
    split
    · simp [ih]
    · rw [ih]
      simp

/-- Every session produced by the single pass is non-empty, provided the
session under construction is. -/
theorem analyzeAux_mem_ne_nil (rest : List Instant) :
    ∀ prev session, session ≠ [] → ∀ s ∈ analyzeAux prev session rest, s ≠ [] := by
  induction rest with
  | nil =>
    intro prev session hs s hmem
    rw [analyzeAux] at hmem
    simp only [List.mem_singleton] at hmem
    exact hmem ▸ hs
  | cons curr rest ih =>
    intro prev session hs s hmem
    rw [analyzeAux] at hmem
    split at hmem
    · rcases List.mem_cons.mp hmem with h | h
      · exact h ▸ hs
      · exact ih curr [curr] (by simp) s h
    · exact ih curr (session ++ [curr]) (by simp) s hmem

/-- Every session produced by the single pass is a sublist of the
remaining input (session under construction followed by the rest). -/
theorem analyzeAux_mem_sublist (rest : List Instant) :
    ∀ prev session s, s ∈ analyzeAux prev session rest → s.Sublist (session ++ rest) := by
  induction rest with
  | nil =>
    intro prev session s hmem
    rw [analyzeAux] at hmem
    simp only [List.mem_singleton] at hmem
    simp [hmem]
  | cons curr rest ih =>
    intro prev session s hmem
    rw [analyzeAux] at hmem
    split at hmem
    · rcases List.mem_cons.mp hmem with h | h
      · exact h ▸ List.sublist_append_left session (curr :: rest)
      · have h1 : s.Sublist ([curr] ++ rest) := ih curr [curr] s h
        exact h1.trans (List.sublist_append_right session (curr :: rest))
    · have h1 : s.Sublist ((session ++ [curr]) ++ rest) := ih curr (session ++ [curr]) s hmem
      simpa [List.append_assoc] using h1

/-- The first session emitted by the single pass starts with the first
instant of the session under construction. -/
theorem analyzeAux_head_head (rest : List Instant) :
    ∀ prev a tail s, (analyzeAux prev (a :: tail) rest).head? = some s → s.head? = some a := by
  induction rest with
  | nil =>
    intro prev a tail s h
    rw [analyzeAux] at h
    simp only [List.head?_cons, Option.some.injEq] at h
    rw [← h]
    rfl
  | cons curr rest ih =>
    intro prev a tail s h
    rw [analyzeAux] at h
    split at h
    · simp only [List.head?_cons, Option.some.injEq] at h
      rw [← h]
      rfl
    · exact ih curr a (tail ++ [curr]) s (by simpa using h)

/-- Within every session built by the single pass, consecutive instants
are at most `MIN_BREAK_MINUTES` minutes apart. -/
theorem analyzeAux_chain (rest : List Instant) :
    ∀ prev session,
      List.Chain' (fun x y => minuteGap x y ≤ (MIN_BREAK_MINUTES : Rat)) session →
      session.getLast? = some prev →
      ∀ s ∈ analyzeAux prev session rest,
        List.Chain' (fun x y => minuteGap x y ≤ (MIN_BREAK_MINUTES : Rat)) s := by
  induction rest with
  | nil =>
    intro prev session hc _ s hmem
    rw [analyzeAux] at hmem
    simp only [List.mem_singleton] at hmem
    exact hmem ▸ hc
  | cons curr rest ih =>
    intro prev session hc hl s hmem
    rw [analyzeAux] at hmem
    split at hmem
    · rcases List.mem_cons.mp hmem with h | h
      · exact h ▸ hc
      · exact ih curr [curr] (List.chain'_singleton curr) (by simp) s h
    next hgap =>
      refine ih curr (session ++ [curr]) ?_ (by simp) s hmem
      rw [List.chain'_append]
      refine ⟨hc, List.chain'_singleton curr, ?_⟩
      intro x hx y hy
      rw [hl] at hx
      simp only [Option.mem_def, Option.some.injEq] at hx
      simp only [List.head?_cons, Option.mem_def, Option.some.injEq] at hy
      rw [← hx, ← hy] at *
      exact not_lt.mp (by simpa using hgap)

/-- Consecutive sessions built by the single pass are separated by a gap
strictly greater than `MIN_BREAK_MINUTES` minutes (measured from the last
instant of the earlier session to the first of the later one). -/
theorem analyzeAux_boundary (rest : List Instant) :
    ∀ prev session, session.getLast? = some prev →
      List.Chain'
        (fun s t => ∀ a ∈ s.getLast?, ∀ b ∈ t.head?, (MIN_BREAK_MINUTES : Rat) < minuteGap a b)
        (analyzeAux prev session rest) := by
  induction rest with
  | nil =>
    intro prev session _
    rw [analyzeAux]
    exact List.chain'_singleton session
  | cons curr rest ih =>
    intro prev session hl
    rw [analyzeAux]
    split
    next hgap =>
      rw [List.chain'_cons']
      refine ⟨?_, ih curr [curr] (by simp)⟩
      intro t ht a ha b hb
      have hth : t.head? = some curr := analyzeAux_head_head rest curr curr [] t ht
      rw [hl] at ha
      simp only [Option.mem_def, Option.some.injEq] at ha
      rw [hth] at hb
      simp only [Option.mem_def, Option.some.injEq] at hb
      rw [← ha, ← hb] at *
      simpa using hgap
    · exact ih curr (session ++ [curr]) (by simp)

/-- The segmenter answers `none` (Python `None`) exactly on empty input. -/
theorem analyze_sessions_eq_none_iff (l : List Instant) :
    analyze_sessions l = none ↔ l = [] := by
  rw [analyze_sessions]
  rcases h : List.insertionSort (· ≤ ·) l with _ | ⟨t0, rest⟩
  · have hp : l.Perm ([] : List Instant) := h ▸ (List.perm_insertionSort (· ≤ ·) l).symm
    simp [hp.eq_nil]
  · simp only [reduceCtorEq, false_iff]
    intro hl
    rw [hl] at h
    simp [List.insertionSort] at h

/-- A `some` answer from the segmenter is never the empty session list. -/
theorem analyze_sessions_some_ne_nil {l : List Instant} {ss : List (List Instant)}
    (h : analyze_sessions l = some ss) : ss ≠ [] := by
  rw [analyze_sessions] at h
  rcases hs : List.insertionSort (· ≤ ·) l with _ | ⟨t0, rest⟩ <;> rw [hs] at h
  · simp at h
  · simp only [Option.some.injEq] at h
    exact h ▸ analyzeAux_ne_nil rest t0 [t0]

/-- The sessions of a `some` answer concatenate to the sorted input. -/
theorem analyze_sessions_flatten {l : List Instant} {ss : List (List Instant)}
    (h : analyze_sessions l = some ss) :
    ss.flatten = List.insertionSort (· ≤ ·) l := by
  rw [analyze_sessions] at h
  rcases hs : List.insertionSort (· ≤ ·) l with _ | ⟨t0, rest⟩ <;> rw [hs] at h
  · simp at h
  · simp only [Option.some.injEq] at h
    rw [← h, analyzeAux_flatten]
    rfl

/-- Every session of a `some` answer is non-empty. -/
theorem analyze_sessions_mem_ne_nil {l : List Instant} {ss : List (List Instant)}
    (h : analyze_sessions l = some ss) : ∀ s ∈ ss, s ≠ [] := by
  rw [analyze_sessions] at h
  rcases hs : List.insertionSort (· ≤ ·) l with _ | ⟨t0, rest⟩ <;> rw [hs] at h
  · simp at h
  · simp only [Option.some.injEq] at h
    exact h ▸ analyzeAux_mem_ne_nil rest t0 [t0] (by simp)

/-- Every session of a `some` answer is sorted ascending (it is a sublist
of the sorted input). -/
theorem analyze_sessions_mem_sorted {l : List Instant} {ss : List (List Instant)}
    (h : analyze_sessions l = some ss) : ∀ s ∈ ss, List.Sorted (· ≤ ·) s := by
  intro s hmem
  rw [analyze_sessions] at h
  rcases hs : List.insertionSort (· ≤ ·) l with _ | ⟨t0, rest⟩ <;> rw [hs] at h
  · simp at h
  · simp only [Option.some.injEq] at h
    have hsub : s.Sublist ([t0] ++ rest) := analyzeAux_mem_sublist rest t0 [t0] s (h ▸ hmem)
    have hsorted : List.Sorted (· ≤ ·) ([t0] ++ rest) := by
      have := List.sorted_insertionSort (· ≤ ·) l
      rw [hs] at this
      simpa using this
    exact hsorted.sublist hsub

/-- Within every session of a `some` answer, consecutive instants are at
most `MIN_BREAK_MINUTES` minutes apart. -/
theorem analyze_sessions_mem_chain {l : List Instant} {ss : List (List Instant)}
    (h : analyze_sessions l = some ss) :
    ∀ s ∈ ss, List.Chain' (fun x y => minuteGap x y ≤ (MIN_BREAK_MINUTES : Rat)) s := by
  rw [analyze_sessions] at h
  rcases hs : List.insertionSort (· ≤ ·) l with _ | ⟨t0, rest⟩ <;> rw [hs] at h
  · simp at h
  · simp only [Option.some.injEq] at h
    exact h ▸ analyzeAux_chain rest t0 [t0] (List.chain'_singleton t0) (by simp)

/-- Consecutive sessions of a `some` answer are separated by a gap
strictly greater than `MIN_BREAK_MINUTES` minutes. -/
theorem analyze_sessions_boundary {l : List Instant} {ss : List (List Instant)}
    (h : analyze_sessions l = some ss) :
    List.Chain'
      (fun s t => ∀ a ∈ s.getLast?, ∀ b ∈ t.head?, (MIN_BREAK_MINUTES : Rat) < minuteGap a b)
      ss := by
  rw [analyze_sessions] at h
  rcases hs : List.insertionSort (· ≤ ·) l with _ | ⟨t0, rest⟩ <;> rw [hs] at h
  · simp at h
  · simp only [Option.some.injEq] at h
    exact h ▸ analyzeAux_boundary rest t0 [t0] (by simp)

/-- A sorted session has a non-negative span. -/
theorem sessionSpanSec_nonneg {s : List Instant} (h : List.Sorted (· ≤ ·) s) :
    0 ≤ sessionSpanSec s := by
  rcases s with _ | ⟨a, tail⟩
  · simp [sessionSpanSec]
  · rcases hg : (a :: tail).getLast? with _ | b
    · simp at hg
    · have hbmem : b ∈ a :: tail := List.mem_of_getLast?_eq_some hg
      rw [sessionSpanSec, hg]
      simp only [List.head?_cons, Option.getD_some]
      rcases List.mem_cons.mp hbmem with heq | hmem2
      · rw [heq]
        simp
      · have hab : a ≤ b := List.rel_of_sorted_cons h b hmem2
        exact sub_nonneg.mpr hab

/-- Sorted sessions contribute non-negative whole minutes. -/
theorem sessionMinutes_nonneg {s : List Instant} (h : List.Sorted (· ≤ ·) s) :
    0 ≤ sessionMinutes s :=
  Int.tdiv_nonneg (sessionSpanSec_nonneg h) (by norm_num)

/-- The per-tick daily sum over sorted sessions is non-negative. -/
theorem dailyDelta_nonneg {ss : List (List Instant)}
    (h : ∀ s ∈ ss, List.Sorted (· ≤ ·) s) (d : Int) : 0 ≤ dailyDelta ss d := by
  rw [dailyDelta]
  refine List.sum_nonneg ?_
  intro x hx
  rcases List.mem_map.mp hx with ⟨s, hs, rfl⟩
  exact sessionMinutes_nonneg (h s (List.mem_of_mem_filter hs))

/-- The per-tick weekly sum over sorted sessions is non-negative. -/
theorem weeklyDelta_nonneg {ss : List (List Instant)}
    (h : ∀ s ∈ ss, List.Sorted (· ≤ ·) s) (w : Int) : 0 ≤ weeklyDelta ss w := by
  rw [weeklyDelta]
  refine List.sum_nonneg ?_
  intro x hx
  rcases List.mem_map.mp hx with ⟨s, hs, rfl⟩
  exact sessionMinutes_nonneg (h s (List.mem_of_mem_filter hs))

/-! ### Characterization of a rule-evaluating tick -/

theorem evalTick_first_run (st : SchedState) (now : Instant) (ss : List (List Instant)) :
    (evalTick st now ss).1.first_run = st.first_run := by
  rw [evalTick]
  split <;> simp

theorem evalTick_last_day (st : SchedState) (now : Instant) (ss : List (List Instant)) :
    (evalTick st now ss).1.last_day = some (dateOf now) := by
  rw [evalTick]
  split <;> simp

theorem evalTick_last_week (st : SchedState) (now : Instant) (ss : List (List Instant)) :
    (evalTick st now ss).1.last_week = some (isoWeekOf now) := by
  rw [evalTick]
  split <;> simp

theorem evalTick_daily (st : SchedState) (now : Instant) (ss : List (List Instant)) :
    (evalTick st now ss).1.daily_coding_minutes = postRollDaily st ss now := by
  rw [evalTick, postRollDaily]
  split <;> simp

theorem evalTick_weekly (st : SchedState) (now : Instant) (ss : List (List Instant)) :
    (evalTick st now ss).1.weekly_coding_minutes = postRollWeekly st ss now := by
  rw [evalTick, postRollWeekly]
  split <;> simp

theorem evalTick_hyd_state (st : SchedState) (now : Instant) (ss : List (List Instant)) :
    (evalTick st now ss).1.last_hydration_reminder =
      if fireHydration st now then some now else st.last_hydration_reminder := by
  rw [evalTick]
  simp only [fireHydration]
  split <;> simp

theorem evalTick_act_state (st : SchedState) (now : Instant) (ss : List (List Instant)) :
    (evalTick st now ss).1.last_activity_reminder =
      if fireActivity st now then some now else st.last_activity_reminder := by
  rw [evalTick]
  simp only [fireActivity]
  split <;> simp

theorem evalTick_erg_state (st : SchedState) (now : Instant) (ss : List (List Instant)) :
    (evalTick st now ss).1.last_ergonomics_tip =
      if fireErgonomics st now then some now else st.last_ergonomics_tip := by
  rw [evalTick]
  simp only [fireErgonomics]
  split <;> simp

theorem evalTick_mood_state (st : SchedState) (now : Instant) (ss : List (List Instant)) :
    (evalTick st now ss).1.last_mood_check =
      if fireMood st now then some now else st.last_mood_check := by
  rw [evalTick]
  simp only [fireMood]
  split <;> simp

theorem evalTick_pos_state (st : SchedState) (now : Instant) (ss : List (List Instant)) :
    (evalTick st now ss).1.positive_reinforcement_given =
      (if firesPositive st now ss then true else postRollPos st now) := by
  rw [evalTick]
  simp only [firesPositive, postRollPos, postRollDaily, postRollWeekly]
  split <;> simp_all

theorem evalTick_mem_healthAlert (st : SchedState) (now : Instant) (ss : List (List Instant)) :
    Notif.healthAlert ∈ (evalTick st now ss).2 ↔ long_sessions ss ≠ [] := by
  rw [evalTick]
  simp [List.mem_append, mem_ite_singleton]

theorem evalTick_mem_breakReminder (st : SchedState) (now : Instant) (ss : List (List Instant)) :
    Notif.breakReminder ∈ (evalTick st now ss).2 ↔ no_break_sessions ss ≠ [] := by
  rw [evalTick]
  simp [List.mem_append, mem_ite_singleton]

theorem evalTick_mem_nightOwl (st : SchedState) (now : Instant) (ss : List (List Instant)) :
    Notif.nightOwl ∈ (evalTick st now ss).2 ↔ late_night_commits ss ≠ [] := by
  rw [evalTick]
  simp [List.mem_append, mem_ite_singleton]

theorem evalTick_mem_workLimit (st : SchedState) (now : Instant) (ss : List (List Instant)) :
    Notif.workLimit ∈ (evalTick st now ss).2 ↔ 8 * 60 < postRollDaily st ss now := by
  rw [evalTick, postRollDaily]
  simp [List.mem_append, mem_ite_singleton]

theorem evalTick_mem_weeklyLimit (st : SchedState) (now : Instant) (ss : List (List Instant)) :
    Notif.weeklyLimit ∈ (evalTick st now ss).2 ↔ 40 * 60 < postRollWeekly st ss now := by
  rw [evalTick, postRollWeekly]
  simp [List.mem_append, mem_ite_singleton]

theorem evalTick_mem_hydration (st : SchedState) (now : Instant) (ss : List (List Instant)) :
    Notif.hydration ∈ (evalTick st now ss).2 ↔ fireHydration st now := by
  rw [evalTick, fireHydration]
  simp [List.mem_append, mem_ite_singleton]

theorem evalTick_mem_activity (st : SchedState) (now : Instant) (ss : List (List Instant)) :
    Notif.activity ∈ (evalTick st now ss).2 ↔ fireActivity st now := by
  rw [evalTick, fireActivity]
  simp [List.mem_append, mem_ite_singleton]

theorem evalTick_mem_ergonomics (st : SchedState) (now : Instant) (ss : List (List Instant)) :
    Notif.ergonomics ∈ (evalTick st now ss).2 ↔ fireErgonomics st now := by
  rw [evalTick, fireErgonomics]
  simp [List.mem_append, mem_ite_singleton]

theorem evalTick_mem_mood (st : SchedState) (now : Instant) (ss : List (List Instant)) :
    Notif.mood ∈ (evalTick st now ss).2 ↔ fireMood st now := by
  rw [evalTick, fireMood]
  simp [List.mem_append, mem_ite_singleton]

theorem evalTick_mem_greatJob (st : SchedState) (now : Instant) (ss : List (List Instant)) :
    Notif.greatJob ∈ (evalTick st now ss).2 ↔ firesPositive st now ss := by
  rw [evalTick, firesPositive, postRollPos, postRollDaily, postRollWeekly]
  simp [List.mem_append, mem_ite_singleton]

/-- Occurrence count of a notification in a conditional singleton segment. -/
theorem count_ite_singleton {c : Prop} [Decidable c] (a x : Notif) :
    (if c then [a] else ([] : List Notif)).count x = if c ∧ x = a then 1 else 0 := by
  rcases Decidable.em c with h | h
  · rw [if_pos h]
    rcases Decidable.em (x = a) with hx | hx
    · rw [if_pos ⟨h, hx⟩, hx]
      simp
    · rw [if_neg (by tauto)]
      simp [List.count_cons, hx]
  · rw [if_neg h, if_neg (by tauto)]
    simp

theorem evalTick_count_greatJob (st : SchedState) (now : Instant) (ss : List (List Instant)) :
    (evalTick st now ss).2.count Notif.greatJob =
      if firesPositive st now ss then 1 else 0 := by
  rw [evalTick]
  simp only [firesPositive, postRollPos, postRollDaily, postRollWeekly]
  simp [List.count_append, count_ite_singleton, apply_ite (List.count Notif.greatJob),
    List.count_cons, List.count_nil]

/-! ### Characterization of a full tick -/

/-- Lines 122-124 of the source: a first-run tick emits only the
"monitoring started" notification and only clears the flag. -/
theorem tick_first_run {st : SchedState} (now : Instant) (cs : List Instant)
    (h : st.first_run = true) :
    tick st now cs = ({ st with first_run := false }, [Notif.monitoringStarted]) := by
  simp [tick, h]

/-- Lines 188-191 of the source: a non-first tick with no sessions emits
only the "no data" notification and leaves the state untouched. -/
theorem tick_nodata {st : SchedState} (now : Instant) {cs : List Instant}
    (h1 : st.first_run = false) (h2 : analyze_sessions cs = none) :
    tick st now cs = (st, [Notif.noData]) := by
  simp [tick, h1, h2]

/-- A non-first tick with sessions runs the rule-evaluating body. -/
theorem tick_eval {st : SchedState} (now : Instant) {cs : List Instant}
    {ss : List (List Instant)}
    (h1 : st.first_run = false) (h2 : analyze_sessions cs = some ss) :
    tick st now cs = evalTick st now ss := by
  rcases ss with _ | ⟨s, rest⟩
  · exact absurd rfl (analyze_sessions_some_ne_nil h2)
  · simp [tick, h1, h2]

/-! ### Multi-tick runs -/

theorem runTicks_nil (st : SchedState) : runTicks st [] = (st, []) := rfl

theorem runTicks_cons (st : SchedState) (now : Instant) (cs : List Instant)
    (steps : List (Instant × List Instant)) :
    runTicks st ((now, cs) :: steps) =
      ((runTicks (tick st now cs).1 steps).1,
        (tick st now cs).2 ++ (runTicks (tick st now cs).1 steps).2) := rfl

/-- Any single tick emits positive reinforcement at most once. -/
theorem tick_count_greatJob_le_one (st : SchedState) (now : Instant) (cs : List Instant) :
    (tick st now cs).2.count Notif.greatJob ≤ 1 := by
  cases h1 : st.first_run with
  | true =>
    rw [tick_first_run now cs h1]
    simp [List.count_cons]
  | false =>
    cases h2 : analyze_sessions cs with
    | none =>
      rw [tick_nodata now h1 h2]
      simp [List.count_cons]
    | some ss =>
      rw [tick_eval now h1 h2, evalTick_count_greatJob]
      split <;> simp

/-- If a tick emits positive reinforcement, afterwards the flag is set and
the stored day is the tick's day. -/
theorem tick_greatJob_post (st : SchedState) (now : Instant) (cs : List Instant)
    (h : (tick st now cs).2.count Notif.greatJob = 1) :
    (tick st now cs).1.positive_reinforcement_given = true ∧
      (tick st now cs).1.last_day = some (dateOf now) := by
  cases h1 : st.first_run with
  | true =>
    rw [tick_first_run now cs h1] at h
    simp [List.count_cons] at h
  | false =>
    cases h2 : analyze_sessions cs with
    | none =>
      rw [tick_nodata now h1 h2] at h
      simp [List.count_cons] at h
    | some ss =>
      rw [tick_eval now h1 h2] at h ⊢
      rw [evalTick_count_greatJob] at h
      rw [evalTick_pos_state, evalTick_last_day]
      split at h
      next hfire => simp [if_pos hfire]
      next => simp at h

/-- A tick on a day already recorded, with the flag already set, emits no
positive reinforcement and preserves the flag and the recorded day. -/
theorem tick_no_greatJob_of_flag {st : SchedState} (now : Instant) (cs : List Instant) {D : Int}
    (hpos : st.positive_reinforcement_given = true) (hday : st.last_day = some D)
    (hnow : dateOf now = D) :
    (tick st now cs).2.count Notif.greatJob = 0 ∧
      (tick st now cs).1.positive_reinforcement_given = true ∧
      (tick st now cs).1.last_day = some D := by
  cases h1 : st.first_run with
  | true =>
    rw [tick_first_run now cs h1]
    refine ⟨by simp [List.count_cons], hpos, hday⟩
  | false =>
    cases h2 : analyze_sessions cs with
    | none =>
      rw [tick_nodata now h1 h2]
      exact ⟨by simp [List.count_cons], hpos, hday⟩
    | some ss =>
      rw [tick_eval now h1 h2]
      have hroll : postRollPos st now = true := by
        rw [postRollPos, hnow, hday]
        simp [hpos]
      have hnof : ¬ firesPositive st now ss := by
        rw [firesPositive]
        intro hc
        rw [hroll] at hc
        exact absurd hc.2 (by simp)
      refine ⟨?_, ?_, ?_⟩
      · rw [evalTick_count_greatJob, if_neg hnof]
      · rw [evalTick_pos_state, if_neg hnof, hroll]
      · rw [evalTick_last_day, hnow]

/-- Once the flag is set and the day matches, a same-day run emits no
positive reinforcement at all. -/
theorem runTicks_count_greatJob_zero (D : Int) :
    ∀ steps : List (Instant × List Instant), ∀ st : SchedState,
      st.positive_reinforcement_given = true → st.last_day = some D →
      (∀ p ∈ steps, dateOf p.1 = D) →
      (runTicks st steps).2.count Notif.greatJob = 0 := by
  intro steps
  induction steps with
  | nil =>
    intro st _ _ _
    simp [runTicks_nil]
  | cons p steps ih =>
    intro st hpos hday hdates
    rcases p with ⟨now, cs⟩
    have hnow : dateOf now = D := hdates (now, cs) (List.mem_cons_self _ _)
    have h := tick_no_greatJob_of_flag now cs hpos hday hnow
    rw [runTicks_cons]
    simp only [List.count_append]
    rw [h.1, ih (tick st now cs).1 h.2.1 h.2.2 (fun q hq => hdates q (List.mem_cons_of_mem _ hq))]

/-- Over any same-day run, positive reinforcement is emitted at most once,
whatever the starting state and the commit histories seen by each tick. -/
theorem runTicks_count_greatJob_le_one (D : Int) :
    ∀ steps : List (Instant × List Instant), ∀ st : SchedState,
      (∀ p ∈ steps, dateOf p.1 = D) →
      (runTicks st steps).2.count Notif.greatJob ≤ 1 := by
  intro steps
  induction steps with
  | nil =>
    intro st _
    simp [runTicks_nil]
  | cons p steps ih =>
    intro st hdates
    rcases p with ⟨now, cs⟩
    have hnow : dateOf now = D := hdates (now, cs) (List.mem_cons_self _ _)
    have hrest : ∀ q ∈ steps, dateOf q.1 = D :=
      fun q hq => hdates q (List.mem_cons_of_mem _ hq)
    rw [runTicks_cons]
    simp only [List.count_append]
    rcases Nat.lt_or_ge ((tick st now cs).2.count Notif.greatJob) 1 with hc | hc
    · have hc0 : (tick st now cs).2.count Notif.greatJob = 0 := Nat.lt_one_iff.mp hc
      rw [hc0]
      simpa using ih (tick st now cs).1 hrest
    · have hc1 : (tick st now cs).2.count Notif.greatJob = 1 :=
        le_antisymm (tick_count_greatJob_le_one st now cs) hc
      have hpost := tick_greatJob_post st now cs hc1
      rw [hc1]
      have hz := runTicks_count_greatJob_zero D steps (tick st now cs).1 hpost.1
        (hnow ▸ hpost.2) hrest
      rw [hz]

/-- Over a same-day run with a fixed commit history and the day already
recorded, each tick adds the same per-tick daily sum, and the first-run
flag and recorded day are preserved. -/
theorem runTicks_daily_const (D : Int) (cs : List Instant) (ss : List (List Instant)) :
    ∀ nows : List Instant, ∀ st : SchedState,
      st.first_run = false → analyze_sessions cs = some ss → st.last_day = some D →
      (∀ n ∈ nows, dateOf n = D) →
      (runTicks st (nows.map (fun n => (n, cs)))).1.daily_coding_minutes =
          st.daily_coding_minutes + nows.length * dailyDelta ss D ∧
        (runTicks st (nows.map (fun n => (n, cs)))).1.first_run = false ∧
        (runTicks st (nows.map (fun n => (n, cs)))).1.last_day = some D := by
  intro nows
  induction nows with
  | nil =>
    intro st h1 _ hday _
    refine ⟨by simp [runTicks_nil], by simp [runTicks_nil, h1], by simp [runTicks_nil, hday]⟩
  | cons now nows ih =>
    intro st h1 h2 hday hdates
    have hnow : dateOf now = D := hdates now (List.mem_cons_self _ _)
    have hrest : ∀ n ∈ nows, dateOf n = D := fun n hn => hdates n (List.mem_cons_of_mem _ hn)
    have htick : tick st now cs = evalTick st now ss := tick_eval now h1 h2
    have hdaily : (tick st now cs).1.daily_coding_minutes =
        st.daily_coding_minutes + dailyDelta ss D := by
      rw [htick, evalTick_daily, postRollDaily, hnow, hday]
      simp
    have hfr : (tick st now cs).1.first_run = false := by
      rw [htick, evalTick_first_run, h1]
    have hld : (tick st now cs).1.last_day = some D := by
      rw [htick, evalTick_last_day, hnow]
    simp only [List.map_cons, runTicks_cons]
    have := ih (tick st now cs).1 hfr h2 hld hrest
    refine ⟨?_, this.2.1, this.2.2⟩
    rw [this.1, hdaily]
    push_cast [List.length_cons]
    ring

/-- Sessions whose internal gaps all stay within `MIN_BREAK_MINUTES`
minutes pass the under-60-minutes gap test of line 148. -/
theorem gapsUnder60_of_chain (s : List Instant)
    (h : List.Chain' (fun x y => minuteGap x y ≤ (MIN_BREAK_MINUTES : Rat)) s) :
    gapsUnder60 s = true := by
  induction s with
  | nil => simp [gapsUnder60]
  | cons a t ih =>
    cases t with
    | nil => simp [gapsUnder60]
    | cons b t2 =>
      rw [List.chain'_cons] at h
      have h2 := ih h.2
      have hab : minuteGap a b < 60 := lt_of_le_of_lt h.1 (by rw [MIN_BREAK_MINUTES]; norm_num)
      rw [gapsUnder60] at h2 ⊢
      simp only [List.tail_cons, List.zip_cons_cons, List.all_cons, Bool.and_eq_true,
        decide_eq_true_eq]
      exact ⟨hab, by simpa using h2⟩

/-- When every session passes the gap test, the no-break filter degenerates
to the span test alone. -/
theorem no_break_eq_span_filter {ss : List (List Instant)}
    (h : ∀ s ∈ ss, gapsUnder60 s = true) :
    no_break_sessions ss = ss.filter (fun s => decide (sessionHours s > 2)) := by
  rw [no_break_sessions]
  refine List.filter_congr ?_
  intro s hs
  rw [h s hs]
  simp

/-! ### The claims -/

/-- C1: for every non-empty input list of instants (possibly unsorted,
possibly with duplicates), `analyze_sessions` sorts ascending and
partitions: the concatenation of the sessions is exactly the ascending
sort of the input (a sorted permutation of it), every session is
non-empty, consecutive instants inside a session are at most
`MIN_BREAK_MINUTES` minutes apart (so a gap of exactly
`MIN_BREAK_MINUTES` never splits a session), and consecutive sessions are
separated by a gap strictly greater than `MIN_BREAK_MINUTES` minutes (so a
new session opens exactly when the gap strictly exceeds the threshold). -/
theorem C1_segmentation_partition (l : List Instant) (hl : l ≠ []) :
    ∃ ss, analyze_sessions l = some ss ∧
      ss.flatten = List.insertionSort (· ≤ ·) l ∧
      List.Sorted (· ≤ ·) ss.flatten ∧
      ss.flatten.Perm l ∧
      (∀ s ∈ ss, s ≠ []) ∧
      (∀ s ∈ ss, List.Chain' (fun x y => minuteGap x y ≤ (MIN_BREAK_MINUTES : Rat)) s) ∧
      List.Chain' (fun s t => ∀ a ∈ s.getLast?, ∀ b ∈ t.head?,
        (MIN_BREAK_MINUTES : Rat) < minuteGap a b) ss := by
  obtain ⟨ss, hss⟩ : ∃ ss, analyze_sessions l = some ss := by
    rcases h : analyze_sessions l with _ | ss
    · exact absurd ((analyze_sessions_eq_none_iff l).mp h) hl
    · exact ⟨ss, rfl⟩
  refine ⟨ss, hss, analyze_sessions_flatten hss, ?_, ?_, analyze_sessions_mem_ne_nil hss,
    analyze_sessions_mem_chain hss, analyze_sessions_boundary hss⟩
  · rw [analyze_sessions_flatten hss]
    exact List.sorted_insertionSort _ l
  · rw [analyze_sessions_flatten hss]
    exact List.perm_insertionSort _ l

/-- C1 witness: the input `[36000, 36300, 37000]` (10:00:00, 10:05:00,
10:16:40) is non-empty; the 5-minute gap does not split, the 700-second
gap does. -/
theorem C1_segmentation_partition_witness :
    ([36000, 36300, 37000] : List Instant) ≠ [] ∧
    ∃ ss, analyze_sessions [36000, 36300, 37000] = some ss ∧
      ss.flatten = List.insertionSort (· ≤ ·) [36000, 36300, 37000] ∧
      List.Sorted (· ≤ ·) ss.flatten ∧
      ss.flatten.Perm [36000, 36300, 37000] ∧
      (∀ s ∈ ss, s ≠ []) ∧
      (∀ s ∈ ss, List.Chain' (fun x y => minuteGap x y ≤ (MIN_BREAK_MINUTES : Rat)) s) ∧
      List.Chain' (fun s t => ∀ a ∈ s.getLast?, ∀ b ∈ t.head?,
        (MIN_BREAK_MINUTES : Rat) < minuteGap a b) ss :=
  ⟨by decide, C1_segmentation_partition [36000, 36300, 37000] (by decide)⟩

/-- C7 as stated is false at the concrete empty input: `analyze_sessions`
executes a bare `return`, i.e. yields Python `None` (`none`), not an empty
sequence of sessions (`some []`). -/
theorem C7_counterexample :
    analyze_sessions ([] : List Instant) ≠ some [] ∧
      analyze_sessions ([] : List Instant) = none := by
  exact ⟨by decide, rfl⟩

/-- C7 (amended): given an empty input the segmenter returns `None`
(modelled `none`) rather than a list of sessions, and the caller treats
the result as "no data", not an error: a non-first tick with empty input
emits exactly the single no-data notification and leaves the rolling
state unchanged. -/
theorem C7_empty_input_none (st : SchedState) (now : Instant)
    (h : st.first_run = false) :
    analyze_sessions ([] : List Instant) = none ∧
      tick st now [] = (st, [Notif.noData]) :=
  ⟨rfl, tick_nodata now h rfl⟩

/-- C7 witness: a concrete non-first state with empty input. -/
theorem C7_empty_input_none_witness :
    ({ initState with first_run := false } : SchedState).first_run = false ∧
      analyze_sessions ([] : List Instant) = none ∧
      tick { initState with first_run := false } 0 [] =
        ({ initState with first_run := false }, [Notif.noData]) :=
  ⟨rfl, C7_empty_input_none { initState with first_run := false } 0 rfl⟩

/-- C8: a commit instant is classified late-night exactly when its local
hour lies in the wrap-around range
`[LATE_NIGHT_START, 24) ∪ [0, LATE_NIGHT_END)`; `late_night_commits`
selects exactly those instants from the flattened sessions; concretely,
23:30 (second 84600 of the epoch day) and 05:59 (second 21540) are
late-night and 07:00 (second 25200) is not. -/
theorem C8_late_night_classification :
    (∀ t : Instant, isLateNightHour (hourOf t) = true ↔
        ((LATE_NIGHT_START ≤ hourOf t ∧ hourOf t < 24) ∨
          (0 ≤ hourOf t ∧ hourOf t < LATE_NIGHT_END))) ∧
      (∀ ss : List (List Instant), ∀ c : Instant,
        c ∈ late_night_commits ss ↔ c ∈ ss.flatten ∧ isLateNightHour (hourOf c) = true) ∧
      isLateNightHour (hourOf 84600) = true ∧
      isLateNightHour (hourOf 21540) = true ∧
      isLateNightHour (hourOf 25200) = false := by
  refine ⟨?_, ?_, by decide, by decide, by decide⟩
  · intro t
    have h0 : 0 ≤ hourOf t := by
      rw [hourOf]
      exact Int.emod_nonneg _ (by norm_num)
    have h24 : hourOf t < 24 := by
      rw [hourOf]
      exact Int.emod_lt_of_pos _ (by norm_num)
    rw [isLateNightHour]
    simp only [decide_eq_true_eq]
    constructor
    · rintro (h | h)
      · exact Or.inl ⟨h, h24⟩
      · exact Or.inr ⟨h0, h⟩
    · rintro (⟨h, _⟩ | ⟨_, h⟩)
      · exact Or.inl h
      · exact Or.inr h
  · intro ss c
    rw [late_night_commits, List.mem_filter]

/-- C10: with the default `MIN_BREAK_MINUTES = 5`, every session produced
by the segmenter has all internal gaps at most 5 minutes, hence passes the
under-60-minutes gap test of the no-break rule; consequently the no-break
sessions are exactly the sessions whose span exceeds 2 hours, and every
long session (span > 3 hours) is also a no-break session. -/
theorem C10_no_break_degenerates (l : List Instant) (ss : List (List Instant))
    (h : analyze_sessions l = some ss) :
    (∀ s ∈ ss, List.Chain' (fun x y => minuteGap x y ≤ (MIN_BREAK_MINUTES : Rat)) s) ∧
      (∀ s ∈ ss, gapsUnder60 s = true) ∧
      no_break_sessions ss = ss.filter (fun s => decide (sessionHours s > 2)) ∧
      (∀ s ∈ long_sessions ss, s ∈ no_break_sessions ss) := by
  have hchain := analyze_sessions_mem_chain h
  have hgaps : ∀ s ∈ ss, gapsUnder60 s = true :=
    fun s hs => gapsUnder60_of_chain s (hchain s hs)
  refine ⟨hchain, hgaps, no_break_eq_span_filter hgaps, ?_⟩
  intro s hs
  rw [long_sessions] at hs
  have hm := List.mem_filter.mp hs
  have h3 : (LONG_SESSION_HOURS : Rat) < sessionHours s := by
    have := hm.2
    simp only [decide_eq_true_eq] at this
    exact this
  rw [no_break_sessions]
  refine List.mem_filter.mpr ⟨hm.1, ?_⟩
  rw [hgaps s hm.1]
  simp only [Bool.true_and, decide_eq_true_eq]
  refine lt_trans ?_ h3
  rw [LONG_SESSION_HOURS]
  norm_num

/-- C10 witness: the input `[0, 300, 1000]` segments into two sessions. -/
theorem C10_no_break_degenerates_witness :
    analyze_sessions [0, 300, 1000] = some [[(0 : Instant), 300], [1000]] ∧
    (∀ s ∈ [[(0 : Instant), 300], [1000]],
        List.Chain' (fun x y => minuteGap x y ≤ (MIN_BREAK_MINUTES : Rat)) s) ∧
      (∀ s ∈ [[(0 : Instant), 300], [1000]], gapsUnder60 s = true) ∧
      no_break_sessions [[(0 : Instant), 300], [1000]] =
        ([[(0 : Instant), 300], [1000]]).filter (fun s => decide (sessionHours s > 2)) ∧
      (∀ s ∈ long_sessions [[(0 : Instant), 300], [1000]],
        s ∈ no_break_sessions [[(0 : Instant), 300], [1000]]) :=
  ⟨by norm_num [analyze_sessions, List.insertionSort, List.orderedInsert, analyzeAux,
      minuteGap, MIN_BREAK_MINUTES],
    C10_no_break_degenerates [0, 300, 1000] [[0, 300], [1000]]
      (by norm_num [analyze_sessions, List.insertionSort, List.orderedInsert, analyzeAux,
        minuteGap, MIN_BREAK_MINUTES])⟩

/-! ### Reminder firing conditions, spelled out -/

theorem fireHydration_iff (st : SchedState) (now : Instant) :
    fireHydration st now ↔
      (st.last_hydration_reminder = none ∨
        ∃ t, st.last_hydration_reminder = some t ∧
          (hydration_interval : Rat) < minuteGap t now) := by
  rw [fireHydration, minutesSince_gt_iff]
  constructor
  · rintro (h | ⟨t, ht, hgt⟩)
    · exact Or.inl h
    · exact Or.inr ⟨t, ht, (minuteGap_gt_iff t now hydration_interval).mpr hgt⟩
  · rintro (h | ⟨t, ht, hgt⟩)
    · exact Or.inl h
    · exact Or.inr ⟨t, ht, (minuteGap_gt_iff t now hydration_interval).mp hgt⟩

theorem fireActivity_iff (st : SchedState) (now : Instant) :
    fireActivity st now ↔
      (st.last_activity_reminder = none ∨
        ∃ t, st.last_activity_reminder = some t ∧
          (activity_interval : Rat) < minuteGap t now) := by
  rw [fireActivity, minutesSince_gt_iff]
  constructor
  · rintro (h | ⟨t, ht, hgt⟩)
    · exact Or.inl h
    · exact Or.inr ⟨t, ht, (minuteGap_gt_iff t now activity_interval).mpr hgt⟩
  · rintro (h | ⟨t, ht, hgt⟩)
    · exact Or.inl h
    · exact Or.inr ⟨t, ht, (minuteGap_gt_iff t now activity_interval).mp hgt⟩

theorem fireErgonomics_iff (st : SchedState) (now : Instant) :
    fireErgonomics st now ↔
      (st.last_ergonomics_tip = none ∨
        ∃ t, st.last_ergonomics_tip = some t ∧
          (ergonomics_interval : Rat) < minuteGap t now) := by
  rw [fireErgonomics, minutesSince_gt_iff]
  constructor
  · rintro (h | ⟨t, ht, hgt⟩)
    · exact Or.inl h
    · exact Or.inr ⟨t, ht, (minuteGap_gt_iff t now ergonomics_interval).mpr hgt⟩
  · rintro (h | ⟨t, ht, hgt⟩)
    · exact Or.inl h
    · exact Or.inr ⟨t, ht, (minuteGap_gt_iff t now ergonomics_interval).mp hgt⟩

theorem fireMood_iff (st : SchedState) (now : Instant) :
    fireMood st now ↔
      (st.last_mood_check = none ∨
        ∃ t, st.last_mood_check = some t ∧
          (mood_check_interval : Rat) < minuteGap t now) := by
  rw [fireMood, minutesSince_gt_iff]
  constructor
  · rintro (h | ⟨t, ht, hgt⟩)
    · exact Or.inl h
    · exact Or.inr ⟨t, ht, (minuteGap_gt_iff t now mood_check_interval).mpr hgt⟩
  · rintro (h | ⟨t, ht, hgt⟩)
    · exact Or.inl h
    · exact Or.inr ⟨t, ht, (minuteGap_gt_iff t now mood_check_interval).mp hgt⟩

/-- C2 as stated is false at a concrete input: on the very first tick
with an empty commit history (no sessions) the loop emits "monitoring
started" — not the no-data notification — and mutates state by clearing
the first-run flag, because the source checks `first_run` (line 122)
before the sessions test (line 126). -/
theorem C2_counterexample :
    Notif.noData ∉ (tick initState 0 []).2 ∧
      Notif.monitoringStarted ∈ (tick initState 0 []).2 ∧
      (tick initState 0 []).1 ≠ initState := by
  refine ⟨by decide, by decide, by decide⟩

/-- C2 (amended): the first-iteration check precedes the no-data branch.
On the very first tick the loop emits the single "monitoring started"
notification and only clears the first-run flag, regardless of sessions;
on every later tick where segmentation yields no sessions it emits the
single "no data" notification and mutates no state. -/
theorem C2_no_data_after_first (st : SchedState) (now : Instant) (cs : List Instant)
    (h2 : analyze_sessions cs = none) :
    (st.first_run = true →
      tick st now cs = ({ st with first_run := false }, [Notif.monitoringStarted])) ∧
      (st.first_run = false → tick st now cs = (st, [Notif.noData])) :=
  ⟨fun h1 => tick_first_run now cs h1, fun h1 => tick_nodata now h1 h2⟩

/-- C2 witness: the empty history at two concrete states. -/
theorem C2_no_data_after_first_witness :
    analyze_sessions ([] : List Instant) = none ∧
    (initState.first_run = true →
      tick initState 0 [] = ({ initState with first_run := false }, [Notif.monitoringStarted])) ∧
      (initState.first_run = false → tick initState 0 [] = (initState, [Notif.noData])) :=
  ⟨rfl, C2_no_data_after_first initState 0 [] rfl⟩

/-- C3 as stated is false at a concrete input: line 144 of the source
compares only the wrapping ISO week-of-year number, so a tick in 2024
week 23 (instant `19880 * 86400`) over a history whose single 1-minute
session starts in 2023 week 23 (instant `19516 * 86400`) adds that
prior-year session's minutes onto `weekly_coding_minutes`, although the
session does not start in the tick's ISO week (the ISO years differ and
the genuine ISO-week sum is zero). -/
theorem C3_counterexample :
    isoWeekOf (19516 * 86400) = isoWeekOf (19880 * 86400) ∧
      isoYearOf (19516 * 86400) ≠ isoYearOf (19880 * 86400) ∧
      weeklyDelta [[19516 * 86400, 19516 * 86400 + 60]] (isoWeekOf (19880 * 86400)) = 1 ∧
      weeklyDeltaCalendarWeek [[19516 * 86400, 19516 * 86400 + 60]]
        (isoYearOf (19880 * 86400)) (isoWeekOf (19880 * 86400)) = 0 ∧
      (tick
          { initState with
              first_run := false, last_week := some (isoWeekOf (19880 * 86400)) }
          (19880 * 86400) [19516 * 86400, 19516 * 86400 + 60]).1.weekly_coding_minutes = 1 := by
  refine ⟨by decide, by decide, by decide, by decide, ?_⟩
  have h2 : analyze_sessions [19516 * 86400, 19516 * 86400 + 60] =
      some [[19516 * 86400, 19516 * 86400 + 60]] := by
    norm_num [analyze_sessions, List.insertionSort, List.orderedInsert, analyzeAux,
      minuteGap, MIN_BREAK_MINUTES]
  rw [tick_eval (19880 * 86400) rfl h2, evalTick_weekly, postRollWeekly, if_pos rfl]
  decide

/-- C3 (amended): on a rule-evaluating tick the scheduler adds onto
`daily_coding_minutes` the sum of floored durations of the sessions whose
start date equals today, and onto `weekly_coding_minutes` the sum over
the sessions whose start carries the tick's ISO week-of-year number
(`isocalendar()[1]`, which wraps annually, so a session of a different
year with the same week number is also counted); consequently, over an
unchanged session history, `k` consecutive rule-evaluating same-day ticks
starting fresh leave `daily_coding_minutes` equal to `k` times the
per-tick sum (still-open sessions are re-counted every tick). -/
theorem C3_accumulation :
    (∀ (st : SchedState) (now : Instant) (cs : List Instant) (ss : List (List Instant)),
      st.first_run = false → analyze_sessions cs = some ss →
      st.last_day = some (dateOf now) →
      (tick st now cs).1.daily_coding_minutes =
        st.daily_coding_minutes + dailyDelta ss (dateOf now)) ∧
      (∀ (st : SchedState) (now : Instant) (cs : List Instant) (ss : List (List Instant)),
        st.first_run = false → analyze_sessions cs = some ss →
        st.last_week = some (isoWeekOf now) →
        (tick st now cs).1.weekly_coding_minutes =
          st.weekly_coding_minutes + weeklyDelta ss (isoWeekOf now)) ∧
      (∀ (D : Int) (cs : List Instant) (ss : List (List Instant)) (nows : List Instant)
          (st : SchedState),
        st.first_run = false → analyze_sessions cs = some ss → st.last_day ≠ some D →
        (∀ n ∈ nows, dateOf n = D) → nows ≠ [] →
        (runTicks st (nows.map (fun n => (n, cs)))).1.daily_coding_minutes =
          nows.length * dailyDelta ss D) := by
  refine ⟨?_, ?_, ?_⟩
  · intro st now cs ss h1 h2 hday
    rw [tick_eval now h1 h2, evalTick_daily, postRollDaily, if_pos hday]
  · intro st now cs ss h1 h2 hweek
    rw [tick_eval now h1 h2, evalTick_weekly, postRollWeekly, if_pos hweek]
  · intro D cs ss nows st h1 h2 hneq hdates hne
    rcases nows with _ | ⟨now, rest⟩
    · exact absurd rfl hne
    have hnow : dateOf now = D := hdates now (List.mem_cons_self _ _)
    have hrest : ∀ n ∈ rest, dateOf n = D := fun n hn => hdates n (List.mem_cons_of_mem _ hn)
    have htick : tick st now cs = evalTick st now ss := tick_eval now h1 h2
    have hdaily : (tick st now cs).1.daily_coding_minutes = dailyDelta ss D := by
      rw [htick, evalTick_daily, postRollDaily, hnow, if_neg hneq]
      ring
    have hfr : (tick st now cs).1.first_run = false := by
      rw [htick, evalTick_first_run, h1]
    have hld : (tick st now cs).1.last_day = some D := by
      rw [htick, evalTick_last_day, hnow]
    simp only [List.map_cons, runTicks_cons]
    have hrun := runTicks_daily_const D cs ss rest (tick st now cs).1 hfr h2 hld hrest
    rw [hrun.1, hdaily]
    push_cast [List.length_cons]
    ring

/-- C3 witness: two same-day ticks over the fixed history
`[36000, 36060]` (one 1-minute session starting on epoch day 0) starting
from a fresh state double-count to `2 × 1` minutes. -/
theorem C3_accumulation_witness :
    analyze_sessions [36000, 36060] = some [[(36000 : Instant), 36060]] ∧
      ({ initState with first_run := false } : SchedState).last_day ≠ some 0 ∧
      (runTicks { initState with first_run := false }
          ([37000, 38000].map (fun n => (n, [(36000 : Instant), 36060])))).1.daily_coding_minutes =
      ([37000, 38000] : List Instant).length * dailyDelta [[36000, 36060]] 0 :=
  ⟨by norm_num [analyze_sessions, List.insertionSort, List.orderedInsert, analyzeAux,
      minuteGap, MIN_BREAK_MINUTES],
    by decide,
    C3_accumulation.2.2 0 [36000, 36060] [[36000, 36060]] [37000, 38000]
      { initState with first_run := false } rfl
      (by norm_num [analyze_sessions, List.insertionSort, List.orderedInsert, analyzeAux,
        minuteGap, MIN_BREAK_MINUTES])
      (by decide) (by decide) (by decide)⟩

/-- C4: on a rule-evaluating tick each periodic reminder fires exactly
when its timestamp was never set (infinite elapsed time) or the elapsed
minutes since it strictly exceed its interval (hydration 60, activity 90,
ergonomics 120, mood 180); on firing, the timestamp is set to the tick's
`now` (otherwise kept), so in particular the hydration reminder cannot
fire again at a later rule-evaluating tick until more than 60 minutes
have elapsed since it last fired. -/
theorem C4_periodic_reminders :
    (∀ (st : SchedState) (now : Instant) (cs : List Instant) (ss : List (List Instant)),
      st.first_run = false → analyze_sessions cs = some ss →
      ((Notif.hydration ∈ (tick st now cs).2 ↔
          (st.last_hydration_reminder = none ∨
            ∃ t, st.last_hydration_reminder = some t ∧
              (hydration_interval : Rat) < minuteGap t now)) ∧
        ((tick st now cs).1.last_hydration_reminder =
          if fireHydration st now then some now else st.last_hydration_reminder) ∧
        (Notif.activity ∈ (tick st now cs).2 ↔
          (st.last_activity_reminder = none ∨
            ∃ t, st.last_activity_reminder = some t ∧
              (activity_interval : Rat) < minuteGap t now)) ∧
        ((tick st now cs).1.last_activity_reminder =
          if fireActivity st now then some now else st.last_activity_reminder) ∧
        (Notif.ergonomics ∈ (tick st now cs).2 ↔
          (st.last_ergonomics_tip = none ∨
            ∃ t, st.last_ergonomics_tip = some t ∧
              (ergonomics_interval : Rat) < minuteGap t now)) ∧
        ((tick st now cs).1.last_ergonomics_tip =
          if fireErgonomics st now then some now else st.last_ergonomics_tip) ∧
        (Notif.mood ∈ (tick st now cs).2 ↔
          (st.last_mood_check = none ∨
            ∃ t, st.last_mood_check = some t ∧
              (mood_check_interval : Rat) < minuteGap t now)) ∧
        ((tick st now cs).1.last_mood_check =
          if fireMood st now then some now else st.last_mood_check))) ∧
      (∀ (st : SchedState) (now now2 : Instant) (cs cs2 : List Instant)
          (ss ss2 : List (List Instant)),
        st.first_run = false → analyze_sessions cs = some ss →
        analyze_sessions cs2 = some ss2 →
        Notif.hydration ∈ (tick st now cs).2 →
        minuteGap now now2 ≤ (hydration_interval : Rat) →
        Notif.hydration ∉ (tick (tick st now cs).1 now2 cs2).2) := by
  constructor
  · intro st now cs ss h1 h2
    rw [tick_eval now h1 h2]
    refine ⟨?_, evalTick_hyd_state st now ss, ?_, evalTick_act_state st now ss,
      ?_, evalTick_erg_state st now ss, ?_, evalTick_mood_state st now ss⟩
    · rw [evalTick_mem_hydration, fireHydration_iff]
    · rw [evalTick_mem_activity, fireActivity_iff]
    · rw [evalTick_mem_ergonomics, fireErgonomics_iff]
    · rw [evalTick_mem_mood, fireMood_iff]
  · intro st now now2 cs cs2 ss ss2 h1 h2 h2b hfired hle
    rw [tick_eval now h1 h2] at hfired ⊢
    have hfire : fireHydration st now := (evalTick_mem_hydration st now ss).mp hfired
    have hst1 : (evalTick st now ss).1.last_hydration_reminder = some now := by
      rw [evalTick_hyd_state, if_pos hfire]
    have hfr1 : (evalTick st now ss).1.first_run = false := by
      rw [evalTick_first_run, h1]
    rw [tick_eval now2 hfr1 h2b, evalTick_mem_hydration]
    rw [fireHydration_iff, hst1]
    rintro (h | ⟨t, ht, hgt⟩)
    · exact Option.noConfusion h
    · have hnt : now = t := Option.some.inj ht
      rw [← hnt] at hgt
      exact absurd hgt (not_lt.mpr hle)

/-- C4 witness: a concrete rule-evaluating tick (fresh state, no reminder
ever fired, history `[36000, 36060]`, `now = 37600`). -/
theorem C4_periodic_reminders_witness :
    ({ initState with first_run := false } : SchedState).first_run = false ∧
      analyze_sessions [36000, 36060] = some [[36000, 36060]] ∧
      ((Notif.hydration ∈
          (tick { initState with first_run := false } 37600 [36000, 36060]).2 ↔
          (({ initState with first_run := false } : SchedState).last_hydration_reminder = none ∨
            ∃ t, ({ initState with first_run := false } : SchedState).last_hydration_reminder =
                some t ∧ (hydration_interval : Rat) < minuteGap t 37600)) ∧
        ((tick { initState with first_run := false } 37600 [36000, 36060]).1.last_hydration_reminder =
          if fireHydration { initState with first_run := false } 37600 then some 37600
          else ({ initState with first_run := false } : SchedState).last_hydration_reminder) ∧
        (Notif.activity ∈
          (tick { initState with first_run := false } 37600 [36000, 36060]).2 ↔
          (({ initState with first_run := false } : SchedState).last_activity_reminder = none ∨
            ∃ t, ({ initState with first_run := false } : SchedState).last_activity_reminder =
                some t ∧ (activity_interval : Rat) < minuteGap t 37600)) ∧
        ((tick { initState with first_run := false } 37600 [36000, 36060]).1.last_activity_reminder =
          if fireActivity { initState with first_run := false } 37600 then some 37600
          else ({ initState with first_run := false } : SchedState).last_activity_reminder) ∧
        (Notif.ergonomics ∈
          (tick { initState with first_run := false } 37600 [36000, 36060]).2 ↔
          (({ initState with first_run := false } : SchedState).last_ergonomics_tip = none ∨
            ∃ t, ({ initState with first_run := false } : SchedState).last_ergonomics_tip =
                some t ∧ (ergonomics_interval : Rat) < minuteGap t 37600)) ∧
        ((tick { initState with first_run := false } 37600 [36000, 36060]).1.last_ergonomics_tip =
          if fireErgonomics { initState with first_run := false } 37600 then some 37600
          else ({ initState with first_run := false } : SchedState).last_ergonomics_tip) ∧
        (Notif.mood ∈
          (tick { initState with first_run := false } 37600 [36000, 36060]).2 ↔
          (({ initState with first_run := false } : SchedState).last_mood_check = none ∨
            ∃ t, ({ initState with first_run := false } : SchedState).last_mood_check = some t ∧
              (mood_check_interval : Rat) < minuteGap t 37600)) ∧
        ((tick { initState with first_run := false } 37600 [36000, 36060]).1.last_mood_check =
          if fireMood { initState with first_run := false } 37600 then some 37600
          else ({ initState with first_run := false } : SchedState).last_mood_check)) :=
  ⟨rfl,
    by norm_num [analyze_sessions, List.insertionSort, List.orderedInsert, analyzeAux,
      minuteGap, MIN_BREAK_MINUTES],
    C4_periodic_reminders.1 { initState with first_run := false } 37600 [36000, 36060]
      [[36000, 36060]] rfl
      (by norm_num [analyze_sessions, List.insertionSort, List.orderedInsert, analyzeAux,
        minuteGap, MIN_BREAK_MINUTES])⟩

/-- C5: on a rule-evaluating tick the positive-reinforcement notification
fires exactly when none of the five alert conditions holds for the
post-roll accumulators and the (post-roll) flag is false; on firing the
flag is set; and over any same-day sequence of ticks — whatever periodic
reminders fire alongside — it is emitted at most once. -/
theorem C5_positive_reinforcement :
    (∀ (st : SchedState) (now : Instant) (cs : List Instant) (ss : List (List Instant)),
      st.first_run = false → analyze_sessions cs = some ss →
      (Notif.greatJob ∈ (tick st now cs).2 ↔
        (¬ alertsAny ss (postRollDaily st ss now) (postRollWeekly st ss now) ∧
          postRollPos st now = false))) ∧
      (∀ (st : SchedState) (now : Instant) (cs : List Instant),
        Notif.greatJob ∈ (tick st now cs).2 →
        (tick st now cs).1.positive_reinforcement_given = true) ∧
      (∀ (D : Int) (steps : List (Instant × List Instant)) (st : SchedState),
        (∀ p ∈ steps, dateOf p.1 = D) →
        (runTicks st steps).2.count Notif.greatJob ≤ 1) := by
  refine ⟨?_, ?_, runTicks_count_greatJob_le_one⟩
  · intro st now cs ss h1 h2
    rw [tick_eval now h1 h2, evalTick_mem_greatJob, firesPositive]
  · intro st now cs hmem
    cases h1 : st.first_run with
    | true =>
      rw [tick_first_run now cs h1] at hmem
      simp at hmem
    | false =>
      cases h2 : analyze_sessions cs with
      | none =>
        rw [tick_nodata now h1 h2] at hmem
        simp at hmem
      | some ss =>
        rw [tick_eval now h1 h2] at hmem ⊢
        have hfire : firesPositive st now ss := (evalTick_mem_greatJob st now ss).mp hmem
        rw [evalTick_pos_state, if_pos hfire]

/-- C5 witness: a one-tick same-day run emitting positive reinforcement
at most once. -/
theorem C5_positive_reinforcement_witness :
    (∀ p ∈ [((37600 : Instant), [(36000 : Instant), 36060])], dateOf p.1 = 0) ∧
      (runTicks initState [(37600, [36000, 36060])]).2.count Notif.greatJob ≤ 1 :=
  ⟨by decide, C5_positive_reinforcement.2.2 0 [(37600, [36000, 36060])] initState (by decide)⟩

/-- C6 as stated is false at a concrete input: a rule-evaluating tick in
2024 week 23 has an ISO week differing from the stored one (recorded in
2023 week 23 — the ISO years differ), yet the scheduler does NOT reset
`weekly_coding_minutes`, because line 137 compares only the wrapping
week-of-year number, which is 23 in both years: the boundary roll leaves
the state untouched and the accumulator keeps growing past the old
value. -/
theorem C6_counterexample :
    isoYearOf (19516 * 86400) ≠ isoYearOf (19880 * 86400) ∧
      isoWeekOf (19516 * 86400) = isoWeekOf (19880 * 86400) ∧
      rollWeek
          { initState with
              weekly_coding_minutes := 999, last_week := some (isoWeekOf (19516 * 86400)) }
          (isoWeekOf (19880 * 86400)) =
        { initState with
            weekly_coding_minutes := 999, last_week := some (isoWeekOf (19516 * 86400)) } ∧
      (tick
          { initState with
              first_run := false, weekly_coding_minutes := 999,
              last_week := some (isoWeekOf (19516 * 86400)) }
          (19880 * 86400) [19516 * 86400, 19516 * 86400 + 60]).1.weekly_coding_minutes =
        999 + 1 := by
  refine ⟨by decide, by decide, by decide, ?_⟩
  have h2 : analyze_sessions [19516 * 86400, 19516 * 86400 + 60] =
      some [[19516 * 86400, 19516 * 86400 + 60]] := by
    norm_num [analyze_sessions, List.insertionSort, List.orderedInsert, analyzeAux,
      minuteGap, MIN_BREAK_MINUTES]
  rw [tick_eval (19880 * 86400) rfl h2, evalTick_weekly, postRollWeekly, if_pos (by decide)]
  decide

/-- C6 (amended): the day/week boundary roll resets `daily_coding_minutes`
(and the positive-reinforcement flag) exactly when the tick's day differs
from the stored one, and `weekly_coding_minutes` exactly when the tick's
ISO week-of-year number (`isocalendar()[1]`, which wraps annually — a
tick a year later in a same-numbered week does not reset) differs from
the stored one; on rule-evaluating ticks the accumulators never decrease
while the stored identifier matches, the identifiers are updated at the
boundary tick, and non-rule ticks leave the state unchanged apart from
the first-run flag. -/
theorem C6_rolling_invariants :
    (∀ (st : SchedState) (d : Int), st.last_day = some d → rollDay st d = st) ∧
      (∀ (st : SchedState) (d : Int), st.last_day ≠ some d →
        rollDay st d = { st with daily_coding_minutes := 0, last_day := some d,
                                 positive_reinforcement_given := false }) ∧
      (∀ (st : SchedState) (w : Int), st.last_week = some w → rollWeek st w = st) ∧
      (∀ (st : SchedState) (w : Int), st.last_week ≠ some w →
        rollWeek st w = { st with weekly_coding_minutes := 0, last_week := some w }) ∧
      (∀ (st : SchedState) (now : Instant) (cs : List Instant) (ss : List (List Instant)),
        st.first_run = false → analyze_sessions cs = some ss →
        st.last_day = some (dateOf now) →
        st.daily_coding_minutes ≤ (tick st now cs).1.daily_coding_minutes) ∧
      (∀ (st : SchedState) (now : Instant) (cs : List Instant) (ss : List (List Instant)),
        st.first_run = false → analyze_sessions cs = some ss →
        st.last_week = some (isoWeekOf now) →
        st.weekly_coding_minutes ≤ (tick st now cs).1.weekly_coding_minutes) ∧
      (∀ (st : SchedState) (now : Instant) (cs : List Instant) (ss : List (List Instant)),
        st.first_run = false → analyze_sessions cs = some ss →
        st.last_day ≠ some (dateOf now) →
        (tick st now cs).1.daily_coding_minutes = dailyDelta ss (dateOf now) ∧
          (tick st now cs).1.last_day = some (dateOf now) ∧
          (tick st now cs).1.positive_reinforcement_given =
            (if firesPositive st now ss then true else false)) ∧
      (∀ (st : SchedState) (now : Instant) (cs : List Instant) (ss : List (List Instant)),
        st.first_run = false → analyze_sessions cs = some ss →
        st.last_week ≠ some (isoWeekOf now) →
        (tick st now cs).1.weekly_coding_minutes = weeklyDelta ss (isoWeekOf now) ∧
          (tick st now cs).1.last_week = some (isoWeekOf now)) ∧
      (∀ (st : SchedState) (now : Instant) (cs : List Instant),
        st.first_run = false → analyze_sessions cs = none → (tick st now cs).1 = st) := by
  refine ⟨?_, ?_, ?_, ?_, ?_, ?_, ?_, ?_, ?_⟩
  · intro st d h
    rw [rollDay, if_neg (by simp [h])]
  · intro st d h
    rw [rollDay, if_pos h]
  · intro st w h
    rw [rollWeek, if_neg (by simp [h])]
  · intro st w h
    rw [rollWeek, if_pos h]
  · intro st now cs ss h1 h2 hday
    rw [tick_eval now h1 h2, evalTick_daily, postRollDaily, if_pos hday]
    have hge := dailyDelta_nonneg (analyze_sessions_mem_sorted h2) (dateOf now)
    omega
  · intro st now cs ss h1 h2 hweek
    rw [tick_eval now h1 h2, evalTick_weekly, postRollWeekly, if_pos hweek]
    have hge := weeklyDelta_nonneg (analyze_sessions_mem_sorted h2) (isoWeekOf now)
    omega
  · intro st now cs ss h1 h2 hneq
    rw [tick_eval now h1 h2]
    refine ⟨?_, evalTick_last_day st now ss, ?_⟩
    · rw [evalTick_daily, postRollDaily, if_neg hneq]
      ring
    · rw [evalTick_pos_state, postRollPos, if_neg hneq]
  · intro st now cs ss h1 h2 hneq
    rw [tick_eval now h1 h2]
    refine ⟨?_, evalTick_last_week st now ss⟩
    rw [evalTick_weekly, postRollWeekly, if_neg hneq]
    ring
  · intro st now cs h1 h2
    rw [tick_nodata now h1 h2]

/-- C6 witness: a same-day rule-evaluating tick never decreases the daily
accumulator. -/
theorem C6_rolling_invariants_witness :
    ({ initState with first_run := false, last_day := some 0 } : SchedState).last_day =
        some (dateOf 37600) ∧
      ({ initState with first_run := false, last_day := some 0 } : SchedState).daily_coding_minutes ≤
        (tick { initState with first_run := false, last_day := some 0 }
            37600 [36000, 36060]).1.daily_coding_minutes :=
  ⟨by decide,
    C6_rolling_invariants.2.2.2.2.1 { initState with first_run := false, last_day := some 0 }
      37600 [36000, 36060] [[36000, 36060]] rfl
      (by norm_num [analyze_sessions, List.insertionSort, List.orderedInsert, analyzeAux,
        minuteGap, MIN_BREAK_MINUTES])
      (by decide)⟩
